import Mathlib

/-!
Shallow embedding of `src/app.py` (workout-transcription-app).

Strings are modelled as `List Char`; Python string primitives
(`split`, `strip`, `lower`, `isdigit`, `replace`, `in`) are embedded as
executable functions on `List Char` below, each matching CPython's
behaviour on the ASCII texts this program handles.
-/

namespace WorkoutApp

/-- Python `s.split(sep)` for a one-character separator: splits at every
occurrence of `sep`, yielding one (possibly empty) part more than the
number of separators; `"".split(sep) == [""]`. -/
def splitOnChar (sep : Char) : List Char → List (List Char)
  | [] => [[]]
  | c :: cs =>
    if c = sep then [] :: splitOnChar sep cs
    else
      match splitOnChar sep cs with
      | [] => [[c]]
      | p :: ps => (c :: p) :: ps

/-- Whitespace stripped by Python `str.strip()` (the ASCII range). -/
def pyIsSpace (c : Char) : Bool :=
  c = ' ' || c = '\t' || c = '\n' || c = '\r' || c = '\x0b' || c = '\x0c'

/-- Python `s.strip()`. -/
def pyStrip (l : List Char) : List Char :=
  ((l.dropWhile pyIsSpace).reverse.dropWhile pyIsSpace).reverse

/-- Python `s.lower()` (ASCII case mapping suffices for this program). -/
def lowerList (l : List Char) : List Char :=
  l.map Char.toLower

/-- Python `s.isdigit()` on ASCII text: non-empty and all decimal digits. -/
def pyIsDigitStr (l : List Char) : Bool :=
  !l.isEmpty && l.all Char.isDigit

/-- Decimal value of a digit string (Python `int(s)` on a digit string). -/
def digitsToNat (l : List Char) : Nat :=
  l.foldl (fun a c => 10 * a + (c.toNat - 48)) 0

/-- `pat` occurs as a leading segment of `l`. -/
def startsWithList : List Char → List Char → Bool
  | [], _ => true
  | _ :: _, [] => false
  | p :: ps, c :: cs => p = c && startsWithList ps cs

/-- Python `pat in s`: `pat` occurs as a contiguous substring of `l`. -/
def containsSub (pat : List Char) : List Char → Bool
  | [] => startsWithList pat []
  | c :: cs => startsWithList pat (c :: cs) || containsSub pat cs

/-! ### `transcribe_text_to_table` (src/app.py lines 41-81) -/

/-- Line 48/58: `line.replace('.', ':')`. -/
def normalizeLine (l : List Char) : List Char :=
  l.map (fun c => if c = '.' then ':' else c)

/-- Lines 49-52 / 59-62: the line (already normalized) contributes only if
it contains `'/'` and `line.split(':')` yields at least 2 parts. -/
def lineQualifies (l : List Char) : Bool :=
  l.contains '/' && decide (2 ≤ (splitOnChar ':' l).length)

/-- `parts[1]` of the normalized line (`parts = line.split(':')`). -/
def secondPart (l : List Char) : List Char :=
  (splitOnChar ':' l).getD 1 []

/-- Lines 53-54 / 65-67: `parts[1].strip().split('/')`, each piece
stripped, kept only when purely numeric or empty. -/
def setPieces (l : List Char) : List (List Char) :=
  ((splitOnChar '/' (pyStrip (secondPart l))).map pyStrip).filter
    (fun s => pyIsDigitStr s || s.isEmpty)

/-- Lines 44-55 (pass 1): running maximum of the filtered set-piece count
over qualifying lines. -/
def maxSetCount (lines : List (List Char)) : Nat :=
  lines.foldl
    (fun m l =>
      let n := normalizeLine l
      if lineQualifies n then max m (setPieces n).length else m) 0

/-- Lines 69-70: `while len(sets) < max_sets: sets.append('')`. -/
def padSets (sets : List (List Char)) (m : Nat) : List (List Char) :=
  sets ++ List.replicate (m - sets.length) []

/-- Lines 72-74: `extra_info = parts[1].split('(')[1].split(')')[0]` when
`'(' in parts[1]`, else the empty string. -/
def noteOf (p : List Char) : List Char :=
  if p.contains '(' then
    (splitOnChar ')' ((splitOnChar '(' p).getD 1 [])).getD 0 []
  else []

/-- One row of the table. The Python code appends the flat list
`[exercise] + sets + [extra_info]`; the three fields here are those
positional components. -/
structure WorkoutRow where
  exercise : List Char
  sets : List (List Char)
  note : List Char
deriving Repr, DecidableEq, Inhabited

/-- Lines 64-77: the row built from a qualifying normalized line, given the
document-wide `max_sets`. -/
def rowOfLine (m : Nat) (l : List Char) : WorkoutRow :=
  { exercise := pyStrip ((splitOnChar ':' l).getD 0 [])
    sets := padSets (setPieces l) m
    note := noteOf (secondPart l) }

/-- Lines 41-81: `transcribe_text_to_table(text)`, returning the row list
and `max_sets`. -/
def transcribe_text_to_table (text : List Char) : List WorkoutRow × Nat :=
  ((splitOnChar '\n' text).filterMap (fun l =>
      if lineQualifies (normalizeLine l) then
        some (rowOfLine (maxSetCount (splitOnChar '\n' text)) (normalizeLine l))
      else none),
   maxSetCount (splitOnChar '\n' text))

/-! ### `extract_workout_title_and_date` (src/app.py lines 174-201) -/

/-- The twelve three-letter month abbreviations of line 184. -/
def monthAbbrevs : List (List Char) :=
  [String.toList "jan", String.toList "feb", String.toList "mar",
   String.toList "apr", String.toList "may", String.toList "jun",
   String.toList "jul", String.toList "aug", String.toList "sep",
   String.toList "oct", String.toList "nov", String.toList "dec"]

/-- Line 184's test on `line_lower` (= the lowered, stripped line): contains
`"date"`, or a month abbreviation, or any decimal digit. -/
def isDateCandidate (low : List Char) : Bool :=
  containsSub (String.toList "date") low
  || monthAbbrevs.any (fun m => containsSub m low)
  || low.any Char.isDigit

/-- Line 188's per-line test (ignoring the `not workout_title` guard):
`line_lower` has no digit and no `'/'`. -/
def titleCandB (l : List Char) : Bool :=
  let low := pyStrip (lowerList l)
  !(low.any Char.isDigit) && !(low.contains '/')

/-- Lines 184-185: the date slot after processing one line. -/
def stepDate (l d : List Char) : List Char :=
  if isDateCandidate (pyStrip (lowerList l)) then pyStrip l else d

/-- Lines 188-189: the title slot after processing one line. -/
def stepTitle (l t : List Char) : List Char :=
  if t.isEmpty && titleCandB l then pyStrip l else t

/-- Lines 180-193: the scanning loop, carrying `(workout_title,
workout_date)` and breaking as soon as both are non-empty. -/
def scanLines : List (List Char) → List Char → List Char → List Char × List Char
  | [], t, d => (t, d)
  | l :: ls, t, d =>
    let t' := stepTitle l t
    let d' := stepDate l d
    if !t'.isEmpty && !d'.isEmpty then (t', d') else scanLines ls t' d'

/-- Lines 174-201: `extract_workout_title_and_date(text)`, with the
fallbacks of lines 196-199 and the `f"{workout_date} - {workout_title}"`
result of line 201. -/
def extract_workout_title_and_date (text : List Char) : List Char :=
  (if (scanLines (splitOnChar '\n' text) [] []).2.isEmpty then String.toList "Unknown Date"
   else (scanLines (splitOnChar '\n' text) [] []).2)
    ++ String.toList " - "
    ++ (if (scanLines (splitOnChar '\n' text) [] []).1.isEmpty then String.toList "Workout"
        else (scanLines (splitOnChar '\n' text) [] []).1)

/-- The lines actually processed by the loop of lines 180-193: scanning
stops right after the first line at which both slots are non-empty (or at
the end of the input). Used to characterize `scanLines`. -/
def processedLines : List (List Char) → List Char → List Char → List (List Char)
  | [], _, _ => []
  | l :: ls, t, d =>
    let t' := stepTitle l t
    let d' := stepDate l d
    l :: (if !t'.isEmpty && !d'.isEmpty then [] else processedLines ls t' d')

/-- The stripped content of the first title-candidate line whose stripped
content is non-empty (falling back to `t`): the value the title slot holds
after the loop runs over `ls` starting from `t`. -/
def firstTitleFrom (ls : List (List Char)) (t : List Char) : List Char :=
  if t.isEmpty then
    match ls.find? (fun l => titleCandB l && !(pyStrip l).isEmpty) with
    | some l => pyStrip l
    | none => t
  else t

/-- The stripped content of the last date-candidate line (falling back to
`d`): the value the date slot holds after the loop runs over `ls` starting
from `d` — each date candidate overwrites the previous one. -/
def lastDateFrom (ls : List (List Char)) (d : List Char) : List Char :=
  match (ls.filter (fun l => isDateCandidate (pyStrip (lowerList l)))).getLast? with
  | some l => pyStrip l
  | none => d

/-- Set pieces computed as claim C4 words them: split the line on the
FIRST colon only, so that everything after the first colon — second and
later colons included — is the second part. This definition follows the
claim's words (not the code), for comparison with `setPieces`. -/
def claimSetPiecesFirstColonOnly (l : List Char) : List (List Char) :=
  ((splitOnChar '/' (pyStrip ((l.dropWhile (fun c => c != ':')).drop 1))).map
      pyStrip).filter
    (fun s => pyIsDigitStr s || s.isEmpty)

/-! ### `create_excel` (src/app.py lines 83-172) -/

/-- The DataFrame columns built at line 232:
`["Exercise"] + [f"Set {j+1}" for j in range(max_sets)] + ["Extra Info"]`. -/
def columnsFor (maxSets : Nat) : List (List Char) :=
  [String.toList "Exercise"]
    ++ (List.range maxSets).map
        (fun j => String.toList "Set " ++ Nat.toDigits 10 (j + 1))
    ++ [String.toList "Extra Info"]

/-- Line 108: the `merge_cells` call for the title cell, as the tuple
`(start_row, start_column, end_row, end_column)` with
`end_column = len(df.columns) + 1`. -/
def titleMergeCells (startRow maxSets : Nat) : Nat × Nat × Nat × Nat :=
  (startRow, 1, startRow, (columnsFor maxSets).length + 1)

/-- A spreadsheet cell value as this program can produce it: a Python
string, an `int`, or a `float` (floats are kept abstract, represented by
the text they were converted from). -/
inductive CellValue where
  | str : List Char → CellValue
  | intv : Int → CellValue
  | floatv : List Char → CellValue
deriving Repr, DecidableEq

/-- Rest of a Python float digit-part after its first digit: further
digits, with single underscores allowed between digits. -/
def dpRest : List Char → List Char
  | '_' :: c :: cs => if c.isDigit then dpRest cs else '_' :: c :: cs
  | c :: cs => if c.isDigit then dpRest cs else c :: cs
  | [] => []

/-- Consume a Python float digit-part (at least one digit); `none` when the
input does not start with a digit. -/
def dpTake : List Char → Option (List Char)
  | c :: cs => if c.isDigit then some (dpRest cs) else none
  | [] => none

/-- Consume the mantissa of a Python float literal:
`digitpart ['.' [digitpart]]` or `'.' digitpart`. -/
def mantissaTake (l : List Char) : Option (List Char) :=
  match dpTake l with
  | some r =>
    match r with
    | '.' :: r2 =>
      match dpTake r2 with
      | some r3 => some r3
      | none => some r2
    | _ => some r
  | none =>
    match l with
    | '.' :: r2 => dpTake r2
    | _ => none

/-- Consume an optional exponent `('e'|'E') [sign] digitpart`. -/
def exponentTake : List Char → Option (List Char)
  | [] => some []
  | c :: rest =>
    if c = 'e' || c = 'E' then
      match rest with
      | s :: r2 => if s = '+' || s = '-' then dpTake r2 else dpTake rest
      | [] => none
    else some (c :: rest)

/-- Whether CPython's `float(s)` succeeds on `s`: optional surrounding
whitespace, optional sign, then `inf`/`infinity`/`nan` (case-insensitive)
or a numeric literal with optional exponent. -/
def pyFloatAccepts (s : List Char) : Bool :=
  let l := pyStrip s
  let l := match l with
    | c :: cs => if c = '+' || c = '-' then cs else c :: cs
    | [] => []
  let low := lowerList l
  if low = String.toList "inf" || low = String.toList "infinity"
      || low = String.toList "nan" then
    true
  else
    match mantissaTake l with
    | some r =>
      match exponentTake r with
      | some [] => true
      | _ => false
    | none => false

/-- Decimal text of an integer (the abstract value of `float(int)`). -/
def intText (n : Int) : List Char :=
  match n with
  | .ofNat m => Nat.toDigits 10 m
  | .negSucc m => '-' :: Nat.toDigits 10 (m + 1)

/-- Lines 135-142: `if isinstance(cell_value, str) and cell_value.isdigit():
cell_value = int(cell_value) else: cell_value = float(cell_value)`, with
`ValueError`/`TypeError` caught and the original value kept. -/
def coerceSetCell (v : CellValue) : CellValue :=
  match v with
  | .str s =>
    if pyIsDigitStr s then .intv (digitsToNat s)
    else if pyFloatAccepts s then .floatv s
    else .str s
  | .intv n => .floatv (intText n)
  | .floatv f => .floatv f

/-- Lines 133-144: the value actually stored in a data cell — the coercion
runs only when the column name starts with `"Set"`. -/
def writeDataCell (colName : List Char) (v : CellValue) : CellValue :=
  if startsWithList (String.toList "Set") colName then coerceSetCell v else v

/-! ### The `index` route, POST branch (src/app.py lines 204-246) -/

/-- One observable processing action of the POST handler: OCR of a file,
parsing of its text, or final workbook composition. -/
inductive PipelineStep where
  | ocr : Nat → PipelineStep
  | parse : Nat → PipelineStep
  | compose : PipelineStep
deriving Repr, DecidableEq

/-- The handler's response: a JSON status/message, or the workbook file
(abstracted to the per-document `(rows, max_sets, header label)` data that
`create_excel` renders). -/
inductive HttpResponse where
  | json : Nat → List Char → HttpResponse
  | file : List (List WorkoutRow × Nat × List Char) → HttpResponse
deriving DecidableEq

/-- Lines 206-240: the POST branch of `index`. `ocr` stands for
`extract_text_from_image` (the external recognition service); the returned
trace lists the processing steps performed. An empty `files[]` list is
rejected at lines 209-211 before any processing. -/
def index_post {α : Type} (ocr : α → List Char) (files : List α) :
    HttpResponse × List PipelineStep :=
  if files.isEmpty then
    (.json 400 (String.toList "No files received"), [])
  else
    let docs := files.map (fun f =>
      let text := ocr f
      let header := extract_workout_title_and_date text
      let tm := transcribe_text_to_table text
      (tm.1, tm.2, header))
    let steps :=
      ((List.range files.length).map
        (fun i => [PipelineStep.ocr i, PipelineStep.parse i])).flatten
        ++ [PipelineStep.compose]
    (.file docs, steps)

/-! ## Helper lemmas -/

theorem splitOnChar_ne_nil (sep : Char) (l : List Char) : splitOnChar sep l ≠ [] := by
  cases l with
  | nil => simp [splitOnChar]
  | cons c cs =>
    simp only [splitOnChar]
    split
    · simp
    · split <;> simp

theorem splitOnChar_getD_zero (sep : Char) (l : List Char) :
    (splitOnChar sep l).getD 0 [] = l.takeWhile (fun c => c != sep) := by
  induction l with
  | nil => rfl
  | cons c cs ih =>
    by_cases h : c = sep
    · simp [splitOnChar, h]
    · rcases hs : splitOnChar sep cs with _ | ⟨p, ps⟩
      · exact absurd hs (splitOnChar_ne_nil sep cs)
      · rw [hs] at ih
        simp only [List.getD_cons_zero] at ih
        simp [splitOnChar, h, hs, List.takeWhile_cons, ih]

theorem splitOnChar_getD_one (sep : Char) (l : List Char) :
    (splitOnChar sep l).getD 1 [] =
      ((l.dropWhile (fun c => c != sep)).drop 1).takeWhile (fun c => c != sep) := by
  induction l with
  | nil => rfl
  | cons c cs ih =>
    by_cases h : c = sep
    · subst h
      have hsplit : splitOnChar c (c :: cs) = [] :: splitOnChar c cs := by
        simp [splitOnChar]
      rw [hsplit, List.getD_cons_succ, splitOnChar_getD_zero]
      simp [List.dropWhile_cons]
    · rcases hs : splitOnChar sep cs with _ | ⟨p, ps⟩
      · exact absurd hs (splitOnChar_ne_nil sep cs)
      · rw [hs] at ih
        simp only [splitOnChar, h, hs, if_neg h, List.dropWhile_cons]
        simpa [h] using ih

theorem mem_of_mem_splitOnChar (sep : Char) (l : List Char) :
    ∀ p ∈ splitOnChar sep l, ∀ c ∈ p, c ∈ l := by
  induction l with
  | nil =>
    intro p hp c hc
    simp [splitOnChar] at hp
    subst hp
    simp at hc
  | cons a as ih =>
    intro p hp c hc
    by_cases h : a = sep
    · simp only [splitOnChar, if_pos h, List.mem_cons] at hp
      rcases hp with hp | hp
      · subst hp; simp at hc
      · exact List.mem_cons_of_mem a (ih p hp c hc)
    · rcases hs : splitOnChar sep as with _ | ⟨q, qs⟩
      · exact absurd hs (splitOnChar_ne_nil sep as)
      · simp only [splitOnChar, if_neg h, hs, List.mem_cons] at hp
        rcases hp with hp | hp
        · subst hp
          rcases List.mem_cons.mp hc with rfl | hc2
          · exact List.mem_cons_self c as
          · have hq : q ∈ splitOnChar sep as := by rw [hs]; exact List.mem_cons_self q qs
            exact List.mem_cons_of_mem a (ih q hq c hc2)
        · have hp' : p ∈ splitOnChar sep as := by rw [hs]; exact List.mem_cons_of_mem q hp
          exact List.mem_cons_of_mem a (ih p hp' c hc)

theorem getD_mem_or {α : Type} (xs : List α) (i : Nat) (d : α) :
    xs.getD i d ∈ xs ∨ xs.getD i d = d := by
  induction xs generalizing i with
  | nil => right; cases i <;> rfl
  | cons x xs ih =>
    cases i with
    | zero => left; simp
    | succ n =>
      rcases ih n with h | h
      · left
        rw [List.getD_cons_succ]
        exact List.mem_cons_of_mem x h
      · right
        rw [List.getD_cons_succ]
        exact h

theorem mem_of_getD_splitOnChar (sep : Char) (l : List Char) (i : Nat) (c : Char)
    (hc : c ∈ (splitOnChar sep l).getD i []) : c ∈ l := by
  rcases getD_mem_or (splitOnChar sep l) i [] with h | h
  · exact mem_of_mem_splitOnChar sep l _ h c hc
  · rw [h] at hc; simp at hc

theorem le_foldr_max (x : Nat) (xs : List Nat) (hx : x ∈ xs) : x ≤ xs.foldr max 0 := by
  induction xs with
  | nil => simp at hx
  | cons y ys ih =>
    rcases List.mem_cons.mp hx with rfl | h
    · exact le_max_left _ _
    · exact le_trans (ih h) (le_max_right _ _)

theorem foldl_guard_max (p : List Char → Bool) (f : List Char → Nat) :
    ∀ (lines : List (List Char)) (a : Nat),
      lines.foldl (fun m l => if p l then max m (f l) else m) a
        = max a (((lines.filter p).map f).foldr max 0) := by
  intro lines
  induction lines with
  | nil => intro a; simp
  | cons l ls ih =>
    intro a
    by_cases h : p l = true
    · simp only [List.foldl_cons, List.filter_cons, h, if_pos, List.map_cons,
        List.foldr_cons]
      rw [ih, ← max_assoc]
    · simp only [List.foldl_cons, List.filter_cons, h, if_neg, Bool.false_eq_true,
        if_false]
      rw [ih]

theorem maxSetCount_eq_foldr (lines : List (List Char)) :
    maxSetCount lines =
      (((lines.filter fun l => lineQualifies (normalizeLine l)).map
          fun l => (setPieces (normalizeLine l)).length).foldr max 0) := by
  have h := foldl_guard_max (fun l => lineQualifies (normalizeLine l))
      (fun l => (setPieces (normalizeLine l)).length) lines 0
  exact h.trans (Nat.zero_max _)

theorem setPieces_length_le_maxSetCount (lines : List (List Char)) (l : List Char)
    (hl : l ∈ lines) (hq : lineQualifies (normalizeLine l) = true) :
    (setPieces (normalizeLine l)).length ≤ maxSetCount lines := by
  rw [maxSetCount_eq_foldr]
  exact le_foldr_max _ _ (List.mem_map_of_mem _ (List.mem_filter.mpr ⟨hl, hq⟩))

theorem padSets_length (s : List (List Char)) (m : Nat) (h : s.length ≤ m) :
    (padSets s m).length = m := by
  simp only [padSets, List.length_append, List.length_replicate]
  omega

theorem filterMap_guard_eq (p : List Char → Bool) (g : List Char → WorkoutRow)
    (lines : List (List Char)) :
    lines.filterMap (fun l => if p l then some (g l) else none)
      = (lines.filter p).map g := by
  induction lines with
  | nil => rfl
  | cons l ls ih =>
    by_cases h : p l = true
    · simp [List.filterMap_cons, List.filter_cons, h, ih]
    · simp [List.filterMap_cons, List.filter_cons, h, ih]

theorem sep_not_mem_of_mem_splitOnChar (sep : Char) (l : List Char) :
    ∀ p ∈ splitOnChar sep l, sep ∉ p := by
  induction l with
  | nil =>
    intro p hp
    simp [splitOnChar] at hp
    subst hp
    simp
  | cons a as ih =>
    intro p hp
    by_cases h : a = sep
    · simp only [splitOnChar, if_pos h, List.mem_cons] at hp
      rcases hp with hp | hp
      · subst hp; simp
      · exact ih p hp
    · rcases hs : splitOnChar sep as with _ | ⟨q, qs⟩
      · exact absurd hs (splitOnChar_ne_nil sep as)
      · simp only [splitOnChar, if_neg h, hs, List.mem_cons] at hp
        rcases hp with hp | hp
        · subst hp
          intro hmem
          rcases List.mem_cons.mp hmem with rfl | hmem2
          · exact h rfl
          · have hq : q ∈ splitOnChar sep as := by
              rw [hs]; exact List.mem_cons_self q qs
            exact ih q hq hmem2
        · have hp' : p ∈ splitOnChar sep as := by
            rw [hs]; exact List.mem_cons_of_mem q hp
          exact ih p hp'

theorem sep_not_mem_getD_splitOnChar (sep : Char) (l : List Char) (i : Nat) :
    sep ∉ (splitOnChar sep l).getD i [] := by
  rcases getD_mem_or (splitOnChar sep l) i [] with h | h
  · exact sep_not_mem_of_mem_splitOnChar sep l _ h
  · rw [h]; simp

theorem normalizeLine_no_period (l : List Char) : '.' ∉ normalizeLine l := by
  intro hmem
  simp only [normalizeLine, List.mem_map] at hmem
  obtain ⟨c, _, hc⟩ := hmem
  by_cases h : c = '.'
  · rw [if_pos h] at hc
    exact absurd hc (by decide)
  · rw [if_neg h] at hc
    exact h hc

theorem noteOf_subset (p : List Char) : ∀ c ∈ noteOf p, c ∈ p := by
  intro c hc
  unfold noteOf at hc
  split at hc
  · exact mem_of_getD_splitOnChar '(' p 1 c (mem_of_getD_splitOnChar ')' _ 0 c hc)
  · simp at hc

theorem takeWhile_and_bool (p q : Char → Bool) (l : List Char) :
    (l.takeWhile p).takeWhile q = l.takeWhile (fun c => p c && q c) := by
  induction l with
  | nil => rfl
  | cons c cs ih =>
    by_cases hp : p c = true
    · by_cases hq : q c = true
      · simp [List.takeWhile_cons, hp, hq, ih]
      · simp [List.takeWhile_cons, hp, hq]
    · simp [List.takeWhile_cons, hp]

theorem firstTitleFrom_nil (t : List Char) : firstTitleFrom [] t = t := by
  unfold firstTitleFrom
  split <;> rfl

theorem lastDateFrom_nil (d : List Char) : lastDateFrom [] d = d := rfl

theorem firstTitleFrom_cons (l : List Char) (ls : List (List Char)) (t : List Char) :
    firstTitleFrom (l :: ls) t = firstTitleFrom ls (stepTitle l t) := by
  cases t with
  | cons a t => simp [firstTitleFrom, stepTitle]
  | nil =>
    by_cases hc : titleCandB l = true
    · cases hps : pyStrip l with
      | nil => simp [firstTitleFrom, stepTitle, hc, hps, List.find?_cons]
      | cons b bs => simp [firstTitleFrom, stepTitle, hc, hps, List.find?_cons]
    · simp [firstTitleFrom, stepTitle, hc, List.find?_cons]

theorem lastDateFrom_cons (l : List Char) (ls : List (List Char)) (d : List Char) :
    lastDateFrom (l :: ls) d = lastDateFrom ls (stepDate l d) := by
  by_cases hc : isDateCandidate (pyStrip (lowerList l)) = true
  · cases hxs : ls.filter (fun l => isDateCandidate (pyStrip (lowerList l))) with
    | nil => simp [lastDateFrom, stepDate, List.filter_cons, hc, hxs]
    | cons y ys =>
      simp only [lastDateFrom, stepDate, List.filter_cons, hc, if_true, hxs,
        List.getLast?_cons_cons]
      cases hg : (y :: ys).getLast? with
      | none => simp at hg
      | some x => rfl
  · simp [lastDateFrom, stepDate, List.filter_cons, hc]

theorem scanLines_eq_processed (ls : List (List Char)) : ∀ t d : List Char,
    scanLines ls t d =
      (firstTitleFrom (processedLines ls t d) t,
       lastDateFrom (processedLines ls t d) d) := by
  induction ls with
  | nil =>
    intro t d
    simp [scanLines, processedLines, firstTitleFrom_nil, lastDateFrom_nil]
  | cons l ls ih =>
    intro t d
    by_cases hstop : (!(stepTitle l t).isEmpty && !(stepDate l d).isEmpty) = true
    · simp only [scanLines, processedLines, hstop, if_true]
      rw [firstTitleFrom_cons, lastDateFrom_cons, firstTitleFrom_nil, lastDateFrom_nil]
    · simp only [scanLines, processedLines, hstop, Bool.false_eq_true, if_false]
      rw [ih, firstTitleFrom_cons, lastDateFrom_cons]

/-! ## Claim theorems -/

/-- C1: for every input text, the table returned by
`transcribe_text_to_table` is rectangular — every produced row's `sets`
has length exactly the returned `max_sets`, and `max_sets` equals the
maximum, over all lines passing the `'/'`-presence and colon-split
filters, of the count of set pieces that are purely numeric or empty
before padding. -/
theorem C1_table_rectangular (text : List Char) :
    (∀ row ∈ (transcribe_text_to_table text).1,
        row.sets.length = (transcribe_text_to_table text).2) ∧
    (transcribe_text_to_table text).2 =
      (((splitOnChar '\n' text).filter
          (fun l => lineQualifies (normalizeLine l))).map
        (fun l => (setPieces (normalizeLine l)).length)).foldr max 0 := by
  constructor
  · intro row hrow
    have hrow' : row ∈ (splitOnChar '\n' text).filterMap (fun l =>
        if lineQualifies (normalizeLine l) then
          some (rowOfLine (maxSetCount (splitOnChar '\n' text)) (normalizeLine l))
        else none) := hrow
    rw [List.mem_filterMap] at hrow'
    obtain ⟨l, hl, hf⟩ := hrow'
    by_cases hq : lineQualifies (normalizeLine l) = true
    · rw [if_pos hq] at hf
      injection hf with hf
      rw [← hf]
      show (padSets (setPieces (normalizeLine l)) (maxSetCount (splitOnChar '\n' text))).length
        = maxSetCount (splitOnChar '\n' text)
      exact padSets_length _ _ (setPieces_length_le_maxSetCount _ _ hl hq)
    · rw [if_neg hq] at hf
      exact absurd hf (by simp)
  · exact maxSetCount_eq_foldr _

/-- Witness for C1 at the concrete text `"A: 1/2"`. -/
theorem C1_table_rectangular_witness :
    ((transcribe_text_to_table (String.toList "A: 1/2")).1.getD 0 default).sets.length
      = (transcribe_text_to_table (String.toList "A: 1/2")).2 :=
  (C1_table_rectangular (String.toList "A: 1/2")).1 _ (by decide)

/-- C7: the rows of `transcribe_text_to_table` come exactly from the
qualifying lines, and a line with no `'/'` (after normalization), or
whose colon-split has fewer than 2 parts, is not qualifying — it is
silently excluded and contributes no row. -/
theorem C7_nonqualifying_line_excluded (text : List Char) :
    ((transcribe_text_to_table text).1 =
      ((splitOnChar '\n' text).filter (fun l => lineQualifies (normalizeLine l))).map
        (fun l => rowOfLine (maxSetCount (splitOnChar '\n' text)) (normalizeLine l))) ∧
    (∀ l : List Char,
      ((normalizeLine l).contains '/' = false ∨
        (splitOnChar ':' (normalizeLine l)).length < 2) →
      lineQualifies (normalizeLine l) = false) := by
  constructor
  · exact filterMap_guard_eq _ _ _
  · intro l h
    have hdef : lineQualifies (normalizeLine l)
        = ((normalizeLine l).contains '/'
            && decide (2 ≤ (splitOnChar ':' (normalizeLine l)).length)) := rfl
    rcases h with h | h
    · rw [hdef, h, Bool.false_and]
    · have hd : decide (2 ≤ (splitOnChar ':' (normalizeLine l)).length) = false :=
        decide_eq_false (by omega)
      rw [hdef, hd, Bool.and_false]

/-- Witness for C7 at the concrete line `"just a title line"` (no slash). -/
theorem C7_nonqualifying_line_excluded_witness :
    lineQualifies (normalizeLine (String.toList "just a title line")) = false :=
  (C7_nonqualifying_line_excluded []).2 (String.toList "just a title line")
    (Or.inl (by decide))

/-- Counterexample to C10 as stated: on `"B: 1/2 (a.b)"` the period
between the parentheses becomes `':'` under normalization and then acts as
a colon SEPARATOR, truncating `parts[1]` to `" 1/2 (a"`; the emitted note
is `"a"`, which contains no `':'` — the period does not "appear as `':'`
in the emitted note". -/
theorem C10_counterexample :
    (transcribe_text_to_table (String.toList "B: 1/2 (a.b)")).1 =
      [{ exercise := String.toList "B"
         sets := [String.toList "1"]
         note := String.toList "a" }] ∧
    ':' ∉ String.toList "a" ∧
    String.toList "a" ≠ String.toList "a:b" := by
  refine ⟨by decide, by decide, by decide⟩

/-- C10 amended: the note of every row produced by
`transcribe_text_to_table` never contains a `'.'` character — the
`'.'`-to-`':'` normalization runs on the whole line before note
extraction — and never contains a `':'` character either: a period in the
original OCR text becomes a `':'` that acts as a colon separator and
truncates the second part before the note is taken, so it does not appear
in the emitted note. -/
theorem C10_amended_note_no_period_no_colon (text : List Char) :
    ∀ row ∈ (transcribe_text_to_table text).1, '.' ∉ row.note ∧ ':' ∉ row.note := by
  intro row hrow
  have hrow' : row ∈ (splitOnChar '\n' text).filterMap (fun l =>
      if lineQualifies (normalizeLine l) then
        some (rowOfLine (maxSetCount (splitOnChar '\n' text)) (normalizeLine l))
      else none) := hrow
  rw [List.mem_filterMap] at hrow'
  obtain ⟨l, hl, hf⟩ := hrow'
  by_cases hq : lineQualifies (normalizeLine l) = true
  · rw [if_pos hq] at hf
    injection hf with hf
    constructor
    · intro hdot
      rw [← hf] at hdot
      have h1 : '.' ∈ secondPart (normalizeLine l) := noteOf_subset _ _ hdot
      have h2 : '.' ∈ normalizeLine l := mem_of_getD_splitOnChar ':' _ 1 _ h1
      exact normalizeLine_no_period l h2
    · intro hcolon
      rw [← hf] at hcolon
      have h1 : ':' ∈ secondPart (normalizeLine l) := noteOf_subset _ _ hcolon
      exact sep_not_mem_getD_splitOnChar ':' (normalizeLine l) 1 h1
  · rw [if_neg hq] at hf
    exact absurd hf (by simp)

/-- Witness for the amended C10 at the concrete text `"B: 1/2 (a.b)"`. -/
theorem C10_amended_note_no_period_no_colon_witness :
    '.' ∉ ((transcribe_text_to_table (String.toList "B: 1/2 (a.b)")).1.getD 0 default).note ∧
    ':' ∉ ((transcribe_text_to_table (String.toList "B: 1/2 (a.b)")).1.getD 0 default).note :=
  C10_amended_note_no_period_no_colon (String.toList "B: 1/2 (a.b)") _ (by decide)

/-- C2: the code's actual behaviour on the claimed round-trip input.
The claim expects the row `{Bench, ["10","12","15"], "warmup"}` with a
document maximum of 3 and `{Squat, ["8","8",""]}`; the code instead drops
the piece `"15 (warmup)"` at the numeric filter (line 67 of src/app.py),
yielding `{Bench, ["10","12"], "warmup"}`, a maximum of 2, and
`{Squat, ["8","8"]}`. -/
theorem C2_roundtrip_code_behavior :
    transcribe_text_to_table
        (String.toList "Bench: 10/12/15 (warmup)\nSquat: 8/8") =
      ([{ exercise := String.toList "Bench"
          sets := [String.toList "10", String.toList "12"]
          note := String.toList "warmup" },
        { exercise := String.toList "Squat"
          sets := [String.toList "8", String.toList "8"]
          note := [] }], 2) ∧
    [String.toList "10", String.toList "12"]
      ≠ [String.toList "10", String.toList "12", String.toList "15"] := by
  constructor
  · decide
  · decide

/-- Counterexample to C3 as stated: in `"1\n2\nT"` the line `"1"` is the
first date-candidate line, yet the extractor returns date `"2"` — a later
date candidate replaced the earlier one. Moreover in `"  \n3\nTo"` the
whitespace-only first line is a title-candidate line, yet the returned
title is `"To"`. -/
theorem C3_counterexample :
    isDateCandidate (pyStrip (lowerList (String.toList "1"))) = true ∧
    isDateCandidate (pyStrip (lowerList (String.toList "2"))) = true ∧
    extract_workout_title_and_date (String.toList "1\n2\nT")
      = String.toList "2 - T" ∧
    titleCandB (String.toList "  ") = true ∧
    extract_workout_title_and_date (String.toList "  \n3\nTo")
      = String.toList "3 - To" := by
  refine ⟨by decide, by decide, by decide, by decide, by decide⟩

/-- C3 amended: `extract_workout_title_and_date` scans lines in order and
stops as soon as both slots are non-empty (`processedLines` is exactly the
scanned prefix); the recorded date is the stripped content of the LAST
date-candidate line among the processed lines (each date candidate
overwrites the previous one), and the recorded title is the stripped
content of the first title-candidate line whose stripped content is
non-empty; the usual fallbacks apply when a slot stays empty. -/
theorem C3_amended_last_date_candidate_wins (text : List Char) :
    extract_workout_title_and_date text =
      (if (lastDateFrom (processedLines (splitOnChar '\n' text) [] []) []).isEmpty
       then String.toList "Unknown Date"
       else lastDateFrom (processedLines (splitOnChar '\n' text) [] []) [])
      ++ String.toList " - "
      ++ (if (firstTitleFrom (processedLines (splitOnChar '\n' text) [] []) []).isEmpty
          then String.toList "Workout"
          else firstTitleFrom (processedLines (splitOnChar '\n' text) [] []) []) := by
  unfold extract_workout_title_and_date
  rw [scanLines_eq_processed]

/-- Counterexample to C4 as stated: on the normalized line `"A: 1/2:3"`
the code's set pieces are `["1","2"]` (the second part is only the segment
between the first and second colon), while splitting on the first colon
only — as the claim words it — would give `["1"]` (the piece `"2:3"`
fails the numeric filter). -/
theorem C4_counterexample :
    setPieces (normalizeLine (String.toList "A: 1/2:3"))
      = [String.toList "1", String.toList "2"] ∧
    claimSetPiecesFirstColonOnly (normalizeLine (String.toList "A: 1/2:3"))
      = [String.toList "1"] ∧
    [String.toList "1", String.toList "2"] ≠ [String.toList "1"] := by
  refine ⟨by decide, by decide, by decide⟩

/-- C4 amended: the set pieces of a produced row are obtained by splitting
the normalized line on ALL colons and taking `parts[1]` — the segment
strictly between the first colon and the next colon (or the end of the
line); text after a second colon does NOT belong to the second part. -/
theorem C4_amended_second_part_between_colons (l : List Char) :
    setPieces l =
      ((splitOnChar '/' (pyStrip
          (((l.dropWhile (fun c => c != ':')).drop 1).takeWhile
            (fun c => c != ':')))).map pyStrip).filter
        (fun s => pyIsDigitStr s || s.isEmpty) := by
  unfold setPieces secondPart
  rw [splitOnChar_getD_one]

/-- Counterexample to C5 as stated: in `"Bench: 1/2 (warm"` the second
part contains `'('` but no `')'`, yet the produced note is `"warm"`, not
the empty string. -/
theorem C5_counterexample :
    (transcribe_text_to_table (String.toList "Bench: 1/2 (warm")).1 =
      [{ exercise := String.toList "Bench"
         sets := [String.toList "1"]
         note := String.toList "warm" }] ∧
    String.toList "warm" ≠ [] := by
  refine ⟨by decide, by decide⟩

/-- C5 amended: the note is the substring of the pre-split second part
starting right after the first `'('` and ending at the first following
`'('` or `')'` (or at the end of the string when neither occurs); it is
empty exactly when the second part contains no `'('` or that region is
empty. In particular a `'('` with no `')'` yields the whole remainder, not
the empty string. -/
theorem C5_amended_note_region (p : List Char) :
    noteOf p =
      if p.contains '(' then
        ((p.dropWhile (fun c => c != '(')).drop 1).takeWhile
          (fun c => c != '(' && c != ')')
      else [] := by
  unfold noteOf
  split
  · rw [splitOnChar_getD_zero, splitOnChar_getD_one, takeWhile_and_bool]
  · rfl

/-- Counterexample to C6 as stated: with one set column the title cell is
merged over columns 1..4 (`end_column = len(df.columns) + 1 = 4`), not
columns 1..3 (= setColumnCount + 2) as the claim states. -/
theorem C6_counterexample :
    titleMergeCells 1 1 = (1, 1, 1, 4) ∧ (4 : Nat) ≠ 1 + 2 := by
  refine ⟨by decide, by decide⟩

/-- C6 amended: the title cell is merged horizontally over columns 1
through `setColumnCount + 3` — one exercise column, the set columns, the
note column, plus one extra column beyond the table width (the code uses
`end_column = len(df.columns) + 1`). -/
theorem C6_amended_merge_span (r m : Nat) :
    titleMergeCells r m = (r, 1, r, m + 3) := by
  simp [titleMergeCells, columnsFor]

/-- C8: the coercion applied to set-column cells — a string of decimal
digits is stored as the corresponding integer; otherwise a floating-point
conversion is attempted; when both fail the original value is kept
unchanged and no error is raised. In particular `"10"` becomes the
integer `10` and `"abc"` stays `"abc"`. -/
theorem C8_set_cell_numeric_coercion :
    (∀ s : List Char, pyIsDigitStr s = true →
        coerceSetCell (.str s) = .intv (digitsToNat s)) ∧
    (∀ s : List Char, pyIsDigitStr s = false → pyFloatAccepts s = true →
        coerceSetCell (.str s) = .floatv s) ∧
    (∀ s : List Char, pyIsDigitStr s = false → pyFloatAccepts s = false →
        coerceSetCell (.str s) = .str s) ∧
    coerceSetCell (.str (String.toList "10")) = .intv 10 ∧
    coerceSetCell (.str (String.toList "abc")) = .str (String.toList "abc") := by
  refine ⟨?_, ?_, ?_, by decide, by decide⟩
  · intro s h
    simp [coerceSetCell, h]
  · intro s h1 h2
    simp [coerceSetCell, h1, h2]
  · intro s h1 h2
    simp [coerceSetCell, h1, h2]

/-- Witness for C8 at the concrete strings `"10"` and `"abc"`. -/
theorem C8_set_cell_numeric_coercion_witness :
    coerceSetCell (.str (String.toList "10"))
        = .intv (digitsToNat (String.toList "10")) ∧
    coerceSetCell (.str (String.toList "abc")) = .str (String.toList "abc") :=
  ⟨C8_set_cell_numeric_coercion.1 _ (by decide),
   C8_set_cell_numeric_coercion.2.2.1 _ (by decide) (by decide)⟩

/-- C9: a POST with an empty `files[]` list returns status 400 with the
error message `"No files received"`, and the trace of processing steps is
empty — no OCR, parsing, or workbook composition happens. -/
theorem C9_empty_files_rejected (α : Type) (ocr : α → List Char) :
    index_post ocr ([] : List α) =
      (.json 400 (String.toList "No files received"), []) := rfl

end WorkoutApp
